import Mathlib

/-! Shallow embedding of the item database and identifier resolver of the
`simple_ident_res` front-end (`src/database.rs`, `src/ast.rs`).

Machine integers (`usize` handles) are modelled as `Nat`; `BTreeMap` is
modelled as an association list whose `mapInsert` overwrites the binding of
an existing key in place, which is observationally equivalent for the only
operations the code performs (keyed insert and keyed lookup).  Rust panics
(`unwrap`, map/array indexing, explicit `panic!`) are modelled as `Except`
errors, one `ResolveError` constructor per panic site.  The two loops of
`Database::resolve_idents` are written as explicit recursive functions over
the list of item ids they iterate, so that processing-order properties can
be stated by varying that list; `resolve_idents` itself iterates the ids in
header order, exactly as the Rust code does. -/

/-- Association-list lookup, the model of `BTreeMap::get`. -/
def mapLookup {κ α : Type} [DecidableEq κ] (m : List (κ × α)) (k : κ) : Option α :=
  match m with
  | [] => none
  | (k', v) :: rest => if k' = k then some v else mapLookup rest k

/-- Association-list insert, the model of `BTreeMap::insert`: an existing
binding of the same key is overwritten in place. -/
def mapInsert {κ α : Type} [DecidableEq κ] (m : List (κ × α)) (k : κ) (v : α) : List (κ × α) :=
  match m with
  | [] => [(k, v)]
  | (k', v') :: rest => if k' = k then (k, v) :: rest else (k', v') :: mapInsert rest k v

/-- In-place update of the element at index `i`, the model of
`vec[idx].method(...)`; out of range it is the identity (the Rust code
would panic there, and only ever indexes in range). -/
def modifyIdx {α : Type} (l : List α) (i : Nat) (f : α → α) : List α :=
  match l, i with
  | [], _ => []
  | a :: rest, 0 => f a :: rest
  | a :: rest, n + 1 => a :: modifyIdx rest n f

/-- Kind of a declared item (`ItemKind` in `database.rs`). -/
inductive ItemKind where
  | Function
  | Module
  deriving DecidableEq, Repr

/-- Handle of a declared item (`ItemId`, a newtype over `usize`). -/
abbrev ItemId := Nat

/-- Dotted identifier as written in source (`UnresolvedIdent` in `ast.rs`). -/
structure UnresolvedIdent where
  parts : List String
  deriving DecidableEq, Repr

/-- Unresolved body node (`UnresolvedAST` in `ast.rs`). -/
inductive UnresolvedAST where
  | Call (ident : UnresolvedIdent)
  deriving DecidableEq, Repr

/-- Resolved body node (`ResolvedAST` in `ast.rs`). -/
inductive ResolvedAST where
  | Call (ident : ItemId)
  deriving DecidableEq, Repr

/-- Header of a declared item (`ItemHeader` in `database.rs`). -/
structure ItemHeader where
  kind : ItemKind
  name : String
  parent : ItemId
  id : ItemId
  deriving DecidableEq, Repr

/-- Lexical scope of one item (`Scope` in `database.rs`). -/
structure Scope where
  unresolved_imports : List UnresolvedIdent
  children : List (String × ItemId)
  deriving DecidableEq, Repr

/-- Rust panic sites of the resolver, reified as error values:
`SymbolNotFound` is the `panic!("symbol not found")` in `get_visible_symbol`
and the `.unwrap()` on a missing child in `resolve_single_ident`;
`InvalidPathSegment` is the `panic!("Cannot resolve into non-modules ...")`;
`EmptyPath` is the index/`unwrap` panic on an empty `parts` list (the parser
never produces one); `MissingBody` is the map-index panic in
`get_unresolved_body` for a function with no stored body (the parser always
stores one). -/
inductive ResolveError where
  | SymbolNotFound
  | InvalidPathSegment
  | EmptyPath
  | MissingBody
  deriving DecidableEq, Repr

/-- The whole symbol table (`Database` in `database.rs`). -/
structure Database where
  headers : List ItemHeader
  root : ItemId
  unresolved_bodies : List (ItemId × List UnresolvedAST)
  resolved_bodies : List (ItemId × List ResolvedAST)
  scopes : List Scope
  deriving DecidableEq, Repr

deriving instance DecidableEq for Except

/-- Header used for an out-of-range handle lookup; the Rust code would
panic on such a lookup and never performs one. -/
def junkHeader : ItemHeader :=
  { kind := ItemKind.Module, name := "", parent := 0, id := 0 }

namespace Scope

/-- `Scope::new`. -/
def new : Scope :=
  { unresolved_imports := [], children := [] }

/-- `Scope::add_child`; a name collision silently overwrites. -/
def add_child (s : Scope) (name : String) (id : ItemId) : Scope :=
  { s with children := mapInsert s.children name id }

end Scope

namespace Database

/-- The empty state `Database::new` starts from before creating the root. -/
def empty : Database :=
  { headers := [], root := 0, unresolved_bodies := [], resolved_bodies := [], scopes := [] }

/-- `Database::new_item`: allocate the next handle, push one header and one
scope, and register the name in the parent scope (the root's scope when no
parent is given). -/
def new_item (db : Database) (name : String) (kind : ItemKind) (parent? : Option ItemId) :
    Database × ItemId :=
  let id := db.headers.length
  let parent := parent?.getD db.root
  let db' : Database :=
    { db with
      headers := db.headers ++ [{ kind := kind, name := name, parent := parent, id := id }],
      scopes := modifyIdx (db.scopes ++ [Scope.new]) parent (fun s => s.add_child name id) }
  (db', id)

/-- `Database::new`: the fresh database holding only the root module. -/
def new : Database :=
  (Database.empty.new_item "<ROOT>" ItemKind.Module none).1

/-- `Database::get_header` (array indexing; in range in every actual use). -/
def get_header (db : Database) (item_id : ItemId) : ItemHeader :=
  db.headers.getD item_id junkHeader

/-- `Database::set_unresolved_body`. -/
def set_unresolved_body (db : Database) (id : ItemId) (body : List UnresolvedAST) : Database :=
  { db with unresolved_bodies := mapInsert db.unresolved_bodies id body }

/-- `Database::get_unresolved_body`; the Rust map indexing panics on a
missing key, modelled by `Option`. -/
def get_unresolved_body (db : Database) (id : ItemId) : Option (List UnresolvedAST) :=
  mapLookup db.unresolved_bodies id

/-- `Database::set_resolved_body`. -/
def set_resolved_body (db : Database) (id : ItemId) (body : List ResolvedAST) : Database :=
  { db with resolved_bodies := mapInsert db.resolved_bodies id body }

/-- `Database::get_scope` (array indexing; in range in every actual use). -/
def get_scope (db : Database) (id : ItemId) : Scope :=
  db.scopes.getD id Scope.new

/-- `Database::add_import`. -/
def add_import (db : Database) (id : ItemId) (ident : UnresolvedIdent) : Database :=
  { db with
    scopes := modifyIdx db.scopes id
      (fun s => { s with unresolved_imports := s.unresolved_imports ++ [ident] }) }

/-- The statement `self.scopes[item_id.0].add_child(name, id)` used by
phase 1 of `resolve_idents`. -/
def scope_add_child (db : Database) (id : ItemId) (name : String) (child : ItemId) : Database :=
  { db with scopes := modifyIdx db.scopes id (fun s => s.add_child name child) }

/-- `Database::get_visible_symbol`: self name first, then own children,
then (for non-modules only) the parent module's children, then the root
module's children. -/
def get_visible_symbol (db : Database) (item_id : ItemId) (name : String) :
    Except ResolveError ItemId :=
  let own_header := db.get_header item_id
  if name = own_header.name then
    Except.ok item_id
  else
    match mapLookup (db.get_scope item_id).children name with
    | some child_id => Except.ok child_id
    | none =>
      match (if own_header.kind ≠ ItemKind.Module then
               mapLookup (db.get_scope own_header.parent).children name
             else none) with
      | some child => Except.ok child
      | none =>
        match mapLookup (db.get_scope db.root).children name with
        | some child => Except.ok child
        | none => Except.error ResolveError.SymbolNotFound

/-- The downward-traversal loop of `Database::resolve_single_ident`: each
remaining segment requires the current item to be a module and steps into
the named child. -/
def resolve_down (db : Database) (current : ItemId) : List String → Except ResolveError ItemId
  | [] => Except.ok current
  | sub :: rest =>
    if (db.get_header current).kind ≠ ItemKind.Module then
      Except.error ResolveError.InvalidPathSegment
    else
      match mapLookup (db.get_scope current).children sub with
      | none => Except.error ResolveError.SymbolNotFound
      | some child_id => db.resolve_down child_id rest

/-- `Database::resolve_single_ident`: visible-symbol lookup on the first
segment, then downward traversal over the remaining segments. -/
def resolve_single_ident (db : Database) (item_id : ItemId) (ident : UnresolvedIdent) :
    Except ResolveError ItemId :=
  match ident.parts with
  | [] => Except.error ResolveError.EmptyPath
  | first :: rest =>
    match db.get_visible_symbol item_id first with
    | Except.error e => Except.error e
    | Except.ok root => db.resolve_down root rest

/-- `Database::resolve_idents_in_body`: resolve each call node's identifier
in order, starting from the enclosing function's handle. -/
def resolve_idents_in_body (db : Database) (current_func : ItemId) :
    List UnresolvedAST → Except ResolveError (List ResolvedAST)
  | [] => Except.ok []
  | UnresolvedAST.Call ident :: rest =>
    match db.resolve_single_ident current_func ident with
    | Except.error e => Except.error e
    | Except.ok resolved_ident =>
      match db.resolve_idents_in_body current_func rest with
      | Except.error e => Except.error e
      | Except.ok tail => Except.ok (ResolvedAST.Call resolved_ident :: tail)

/-- Inner loop of phase 1 of `resolve_idents`: process one item's cloned
list of imports in order, resolving each import against the current
database state and binding its last segment's name in the item's own
scope. -/
def resolve_imports_for (db : Database) (item_id : ItemId) :
    List UnresolvedIdent → Except ResolveError Database
  | [] => Except.ok db
  | imp :: rest =>
    match imp.parts.getLast? with
    | none => Except.error ResolveError.EmptyPath
    | some name =>
      match db.resolve_single_ident item_id imp with
      | Except.error e => Except.error e
      | Except.ok resolved_id =>
        (db.scope_add_child item_id name resolved_id).resolve_imports_for item_id rest

/-- Phase 1 of `resolve_idents` over an explicit processing order of item
ids: resolve every item's pending imports into scope aliases. -/
def resolve_scopes_ordered (db : Database) : List ItemId → Except ResolveError Database
  | [] => Except.ok db
  | item_id :: rest =>
    match db.resolve_imports_for item_id (db.get_scope item_id).unresolved_imports with
    | Except.error e => Except.error e
    | Except.ok db' => db'.resolve_scopes_ordered rest

/-- Phase 2 of `resolve_idents` over an explicit processing order of item
ids: for every function, resolve its unresolved body and store the result. -/
def resolve_bodies_ordered (db : Database) : List ItemId → Except ResolveError Database
  | [] => Except.ok db
  | item_id :: rest =>
    if (db.get_header item_id).kind ≠ ItemKind.Function then
      db.resolve_bodies_ordered rest
    else
      match db.get_unresolved_body item_id with
      | none => Except.error ResolveError.MissingBody
      | some body =>
        match db.resolve_idents_in_body item_id body with
        | Except.error e => Except.error e
        | Except.ok new_body =>
          (db.set_resolved_body item_id new_body).resolve_bodies_ordered rest

/-- `Database::resolve_idents` with the item-processing order made
explicit; both phases iterate the same snapshot of item ids, as in the
Rust code. -/
def resolve_idents_ordered (db : Database) (order : List ItemId) : Except ResolveError Database :=
  match db.resolve_scopes_ordered order with
  | Except.error e => Except.error e
  | Except.ok db1 => db1.resolve_bodies_ordered order

/-- `Database::resolve_idents`: the snapshot of item ids is taken from the
headers in storage order. -/
def resolve_idents (db : Database) : Except ResolveError Database :=
  db.resolve_idents_ordered (db.headers.map (fun h => h.id))

/-- Well-formedness invariant: headers and scopes are parallel arrays and
the header stored at index `h` carries id `h`. -/
def wf (db : Database) : Prop :=
  db.headers.length = db.scopes.length ∧
    ∀ i, i < db.headers.length → (db.headers.getD i junkHeader).id = i

instance (db : Database) : Decidable db.wf :=
  inferInstanceAs (Decidable (db.headers.length = db.scopes.length ∧
    ∀ i, i < db.headers.length → (db.headers.getD i junkHeader).id = i))

/-- What phase 2 stores for one function, as a standalone value: the
resolution of its stored unresolved body, `none` when there is no stored
body or the resolution fails. -/
def bodyResult (db : Database) (id : ItemId) : Option (List ResolvedAST) :=
  match db.get_unresolved_body id with
  | none => none
  | some body => (db.resolve_idents_in_body id body).toOption

end Database

/-- Program with modules `M { module N }`, `A` (importing `M.N`) and `B`
(importing `A.N`, a path that traverses the alias phase 1 installs in
`A`'s scope).  Item ids: root 0, `M` 1, `N` 2, `A` 3, `B` 4. -/
def exDb3 : Database :=
  let db := Database.new
  let (db, m) := db.new_item "M" ItemKind.Module none
  let (db, _n) := db.new_item "N" ItemKind.Module (some m)
  let (db, a) := db.new_item "A" ItemKind.Module none
  let (db, b) := db.new_item "B" ItemKind.Module none
  let db := db.add_import a { parts := ["M", "N"] }
  let db := db.add_import b { parts := ["A", "N"] }
  db

/-- Program with modules `V { module W }`, `W { function S() {} }` and
`M` importing first `W.S`, then `V.W`; the second import rebinds the name
`W` inside `M`'s scope, shadowing (for any later lookup seeded at `M`) the
top-level `W` through which the first import had been resolved.  Item ids:
root 0, `V` 1, `V.W` 2, `W` 3, `W.S` 4, `M` 5. -/
def exDb4 : Database :=
  let db := Database.new
  let (db, v) := db.new_item "V" ItemKind.Module none
  let (db, _wv) := db.new_item "W" ItemKind.Module (some v)
  let (db, w) := db.new_item "W" ItemKind.Module none
  let (db, s) := db.new_item "S" ItemKind.Function (some w)
  let db := db.set_unresolved_body s []
  let (db, m) := db.new_item "M" ItemKind.Module none
  let db := db.add_import m { parts := ["W", "S"] }
  let db := db.add_import m { parts := ["V", "W"] }
  db

/-- The concrete scenario of the specification: `A1 { A2 { a_func } ,
top_func }` and `B1 { using A1.A2; b_func }`, where both function bodies
call `A2.a_func()`.  Item ids: root 0, `A1` 1, `A2` 2, `a_func` 3,
`top_func` 4, `B1` 5, `b_func` 6. -/
def exScenario : Database :=
  let db := Database.new
  let (db, a1) := db.new_item "A1" ItemKind.Module none
  let (db, a2) := db.new_item "A2" ItemKind.Module (some a1)
  let (db, afunc) := db.new_item "a_func" ItemKind.Function (some a2)
  let db := db.set_unresolved_body afunc []
  let (db, topfunc) := db.new_item "top_func" ItemKind.Function (some a1)
  let db := db.set_unresolved_body topfunc [UnresolvedAST.Call { parts := ["A2", "a_func"] }]
  let (db, b1) := db.new_item "B1" ItemKind.Module none
  let db := db.add_import b1 { parts := ["A1", "A2"] }
  let (db, bfunc) := db.new_item "b_func" ItemKind.Function (some b1)
  let db := db.set_unresolved_body bfunc [UnresolvedAST.Call { parts := ["A2", "a_func"] }]
  db

/-- Hand-crafted database exercising every branch of the visible-symbol
lookup: a function `f` (handle 1) whose own scope binds `x` while the root
scope binds `f`, `x` and `y` as well, and a module `Ma` (handle 2). -/
def exShadow : Database :=
  { headers :=
      [{ kind := ItemKind.Module, name := "<ROOT>", parent := 0, id := 0 },
       { kind := ItemKind.Function, name := "f", parent := 0, id := 1 },
       { kind := ItemKind.Module, name := "Ma", parent := 0, id := 2 }],
    root := 0,
    unresolved_bodies := [],
    resolved_bodies := [],
    scopes :=
      [{ unresolved_imports := [],
         children := [("<ROOT>", 0), ("f", 1), ("Ma", 2), ("x", 0), ("y", 0)] },
       { unresolved_imports := [], children := [("x", 1)] },
       { unresolved_imports := [], children := [] }] }

/-- The state `exScenario.resolve_idents` computes: `B1`'s scope gained the
alias `A2` and every function body resolved to handle 3 (`a_func`). -/
def exScenarioResolved : Database :=
  { headers :=
      [{ kind := ItemKind.Module, name := "<ROOT>", parent := 0, id := 0 },
       { kind := ItemKind.Module, name := "A1", parent := 0, id := 1 },
       { kind := ItemKind.Module, name := "A2", parent := 1, id := 2 },
       { kind := ItemKind.Function, name := "a_func", parent := 2, id := 3 },
       { kind := ItemKind.Function, name := "top_func", parent := 1, id := 4 },
       { kind := ItemKind.Module, name := "B1", parent := 0, id := 5 },
       { kind := ItemKind.Function, name := "b_func", parent := 5, id := 6 }],
    root := 0,
    unresolved_bodies :=
      [(3, []),
       (4, [UnresolvedAST.Call { parts := ["A2", "a_func"] }]),
       (6, [UnresolvedAST.Call { parts := ["A2", "a_func"] }])],
    resolved_bodies := [(3, []), (4, [ResolvedAST.Call 3]), (6, [ResolvedAST.Call 3])],
    scopes :=
      [{ unresolved_imports := [], children := [("<ROOT>", 0), ("A1", 1), ("B1", 5)] },
       { unresolved_imports := [], children := [("A2", 2), ("top_func", 4)] },
       { unresolved_imports := [], children := [("a_func", 3)] },
       { unresolved_imports := [], children := [] },
       { unresolved_imports := [], children := [] },
       { unresolved_imports := [{ parts := ["A1", "A2"] }],
         children := [("b_func", 6), ("A2", 2)] },
       { unresolved_imports := [], children := [] }] }

/-- The scenario database as it stands between the two phases: scopes
already carry the import alias, no resolved bodies yet. -/
def exScenarioPhase1 : Database :=
  { exScenarioResolved with resolved_bodies := [] }

/-- The state phase 2 reaches on `exScenarioPhase1` when the function
bodies are processed in the order 6, 4, 3: the same bindings as
`exScenarioResolved`, stored in a different list order. -/
def exScenarioBodiesRev : Database :=
  { exScenarioResolved with
    resolved_bodies := [(6, [ResolvedAST.Call 3]), (4, [ResolvedAST.Call 3]), (3, [])] }

/-- The state reached after processing item 5's pending imports of `exDb4`:
first `W.S` binds `S` to handle 4, then `V.W` rebinds `W` to handle 2. -/
def exDb4Phase1 : Database :=
  { headers :=
      [{ kind := ItemKind.Module, name := "<ROOT>", parent := 0, id := 0 },
       { kind := ItemKind.Module, name := "V", parent := 0, id := 1 },
       { kind := ItemKind.Module, name := "W", parent := 1, id := 2 },
       { kind := ItemKind.Module, name := "W", parent := 0, id := 3 },
       { kind := ItemKind.Function, name := "S", parent := 3, id := 4 },
       { kind := ItemKind.Module, name := "M", parent := 0, id := 5 }],
    root := 0,
    unresolved_bodies := [(4, [])],
    resolved_bodies := [],
    scopes :=
      [{ unresolved_imports := [], children := [("<ROOT>", 0), ("V", 1), ("W", 3), ("M", 5)] },
       { unresolved_imports := [], children := [("W", 2)] },
       { unresolved_imports := [], children := [] },
       { unresolved_imports := [], children := [("S", 4)] },
       { unresolved_imports := [], children := [] },
       { unresolved_imports := [{ parts := ["W", "S"] }, { parts := ["V", "W"] }],
         children := [("S", 4), ("W", 2)] }] }

/-! Basic lemmas about the map and array models. -/

theorem mapLookup_insert_self {κ α : Type} [DecidableEq κ] (m : List (κ × α)) (k : κ) (v : α) :
    mapLookup (mapInsert m k v) k = some v := by
  induction m with
  | nil => simp [mapInsert, mapLookup]
  | cons kv rest ih =>
    obtain ⟨k', v'⟩ := kv
    by_cases h : k' = k
    · subst h
      simp [mapInsert, mapLookup]
    · simp [mapInsert, mapLookup, h, ih]

theorem mapLookup_insert_ne {κ α : Type} [DecidableEq κ] (m : List (κ × α)) (k k' : κ) (v : α)
    (h : k' ≠ k) : mapLookup (mapInsert m k v) k' = mapLookup m k' := by
  induction m with
  | nil => simp [mapInsert, mapLookup, Ne.symm h]
  | cons kv rest ih =>
    obtain ⟨k'', v''⟩ := kv
    by_cases h1 : k'' = k
    · subst h1
      simp [mapInsert, mapLookup, Ne.symm h]
    · by_cases h2 : k'' = k'
      · subst h2
        simp [mapInsert, mapLookup, h1]
      · simp [mapInsert, mapLookup, h1, h2, ih]

theorem modifyIdx_length {α : Type} (l : List α) (i : Nat) (f : α → α) :
    (modifyIdx l i f).length = l.length := by
  induction l generalizing i with
  | nil => simp [modifyIdx]
  | cons a rest ih =>
    cases i with
    | zero => simp [modifyIdx]
    | succ n => simp [modifyIdx, ih]

theorem getD_modifyIdx {α : Type} (l : List α) (i j : Nat) (f : α → α) (d : α) :
    (modifyIdx l i f).getD j d =
      if j = i ∧ j < l.length then f (l.getD j d) else l.getD j d := by
  induction l generalizing i j with
  | nil => simp [modifyIdx]
  | cons a rest ih =>
    cases i with
    | zero =>
      cases j with
      | zero => simp [modifyIdx]
      | succ m => simp [modifyIdx]
    | succ n =>
      cases j with
      | zero => simp [modifyIdx]
      | succ m =>
        simp only [modifyIdx, List.getD_cons_succ, List.length_cons]
        rw [ih]
        simp [Nat.succ_lt_succ_iff]

theorem getD_append_left {α : Type} (l l' : List α) (i : Nat) (d : α) (h : i < l.length) :
    (l ++ l').getD i d = l.getD i d := by
  induction l generalizing i with
  | nil => simp at h
  | cons a rest ih =>
    cases i with
    | zero => simp
    | succ m =>
      simp only [List.cons_append, List.getD_cons_succ]
      apply ih
      simp only [List.length_cons] at h
      omega

theorem getD_append_length {α : Type} (l : List α) (a : α) (d : α) :
    (l ++ [a]).getD l.length d = a := by
  induction l with
  | nil => simp
  | cons b rest ih =>
    simp only [List.cons_append, List.length_cons, List.getD_cons_succ]
    exact ih

/-! Congruence: every resolution function reads only the headers, scopes
and root of the database, so two databases agreeing on those fields
resolve identically. -/

theorem get_header_congr {d1 d2 : Database} (hH : d1.headers = d2.headers) (i : ItemId) :
    d1.get_header i = d2.get_header i := by
  simp [Database.get_header, hH]

theorem get_scope_congr {d1 d2 : Database} (hS : d1.scopes = d2.scopes) (i : ItemId) :
    d1.get_scope i = d2.get_scope i := by
  simp [Database.get_scope, hS]

theorem get_visible_symbol_congr {d1 d2 : Database} (hH : d1.headers = d2.headers)
    (hS : d1.scopes = d2.scopes) (hR : d1.root = d2.root) (i : ItemId) (name : String) :
    d1.get_visible_symbol i name = d2.get_visible_symbol i name := by
  simp only [Database.get_visible_symbol, get_header_congr hH, get_scope_congr hS, hR]

theorem resolve_down_congr {d1 d2 : Database} (hH : d1.headers = d2.headers)
    (hS : d1.scopes = d2.scopes) (cur : ItemId) (segs : List String) :
    d1.resolve_down cur segs = d2.resolve_down cur segs := by
  induction segs generalizing cur with
  | nil => simp [Database.resolve_down]
  | cons s rest ih =>
    simp only [Database.resolve_down, get_header_congr hH, get_scope_congr hS]
    by_cases hk : (d2.get_header cur).kind ≠ ItemKind.Module
    · simp [hk]
    · simp only [hk, if_neg, ite_false, if_false]
      cases hlk : mapLookup (d2.get_scope cur).children s with
      | none => simp [hlk]
      | some c => simp [hlk, ih c]

theorem resolve_single_ident_congr {d1 d2 : Database} (hH : d1.headers = d2.headers)
    (hS : d1.scopes = d2.scopes) (hR : d1.root = d2.root) (i : ItemId) (ident : UnresolvedIdent) :
    d1.resolve_single_ident i ident = d2.resolve_single_ident i ident := by
  obtain ⟨parts⟩ := ident
  cases parts with
  | nil => simp [Database.resolve_single_ident]
  | cons first rest =>
    simp only [Database.resolve_single_ident, get_visible_symbol_congr hH hS hR]
    cases d2.get_visible_symbol i first with
    | error e => rfl
    | ok r => simp [resolve_down_congr hH hS]

theorem resolve_idents_in_body_congr {d1 d2 : Database} (hH : d1.headers = d2.headers)
    (hS : d1.scopes = d2.scopes) (hR : d1.root = d2.root) (f : ItemId)
    (body : List UnresolvedAST) :
    d1.resolve_idents_in_body f body = d2.resolve_idents_in_body f body := by
  induction body with
  | nil => simp [Database.resolve_idents_in_body]
  | cons node rest ih =>
    obtain ⟨ident⟩ := node
    simp only [Database.resolve_idents_in_body, resolve_single_ident_congr hH hS hR, ih]

/-! Frame lemmas: what each mutation step leaves untouched. -/

theorem add_child_unresolved_imports (s : Scope) (n : String) (c : ItemId) :
    (s.add_child n c).unresolved_imports = s.unresolved_imports := rfl

theorem get_scope_scope_add_child (db : Database) (i : ItemId) (n : String) (c : ItemId)
    (j : ItemId) :
    (db.scope_add_child i n c).get_scope j =
      if j = i ∧ j < db.scopes.length then (db.get_scope j).add_child n c
      else db.get_scope j := by
  simp only [Database.scope_add_child, Database.get_scope]
  rw [getD_modifyIdx]

theorem resolve_imports_for_frame (imps : List UnresolvedIdent) :
    ∀ (db db' : Database) (item : ItemId),
      db.resolve_imports_for item imps = Except.ok db' →
      db'.headers = db.headers ∧ db'.root = db.root ∧
        db'.unresolved_bodies = db.unresolved_bodies ∧
        db'.resolved_bodies = db.resolved_bodies ∧
        db'.scopes.length = db.scopes.length ∧
        (∀ j, (db'.get_scope j).unresolved_imports = (db.get_scope j).unresolved_imports) ∧
        (∀ j, j ≠ item → db'.get_scope j = db.get_scope j) := by
  induction imps with
  | nil =>
    intro db db' item h
    simp only [Database.resolve_imports_for, Except.ok.injEq] at h
    subst h
    simp
  | cons imp rest ih =>
    intro db db' item h
    simp only [Database.resolve_imports_for] at h
    cases hl : imp.parts.getLast? with
    | none => simp [hl] at h
    | some name =>
      rw [hl] at h
      cases hr : db.resolve_single_ident item imp with
      | error e => simp [hr] at h
      | ok rid =>
        simp only [hr] at h
        obtain ⟨h1, h2, h3, h4, h5, h6, h7⟩ := ih _ _ _ h
        refine ⟨h1, h2, h3, h4, ?_, ?_, ?_⟩
        · rw [h5]
          simp [Database.scope_add_child, modifyIdx_length]
        · intro j
          rw [h6 j, get_scope_scope_add_child]
          split
          · exact add_child_unresolved_imports _ _ _
          · rfl
        · intro j hj
          rw [h7 j hj, get_scope_scope_add_child]
          simp [hj]

theorem resolve_scopes_ordered_frame (order : List ItemId) :
    ∀ (db db' : Database),
      db.resolve_scopes_ordered order = Except.ok db' →
      db'.headers = db.headers ∧ db'.root = db.root ∧
        db'.unresolved_bodies = db.unresolved_bodies ∧
        db'.resolved_bodies = db.resolved_bodies ∧
        db'.scopes.length = db.scopes.length ∧
        (∀ j, (db'.get_scope j).unresolved_imports = (db.get_scope j).unresolved_imports) := by
  induction order with
  | nil =>
    intro db db' h
    simp only [Database.resolve_scopes_ordered, Except.ok.injEq] at h
    subst h
    simp
  | cons item rest ih =>
    intro db db' h
    simp only [Database.resolve_scopes_ordered] at h
    cases hr : db.resolve_imports_for item (db.get_scope item).unresolved_imports with
    | error e => simp [hr] at h
    | ok dmid =>
      simp only [hr] at h
      obtain ⟨h1, h2, h3, h4, h5, h6⟩ := ih _ _ h
      obtain ⟨g1, g2, g3, g4, g5, g6, _⟩ := resolve_imports_for_frame _ _ _ _ hr
      exact ⟨h1.trans g1, h2.trans g2, h3.trans g3, h4.trans g4, h5.trans g5,
        fun j => (h6 j).trans (g6 j)⟩

theorem resolve_bodies_ordered_frame (order : List ItemId) :
    ∀ (db db' : Database),
      db.resolve_bodies_ordered order = Except.ok db' →
      db'.headers = db.headers ∧ db'.root = db.root ∧
        db'.unresolved_bodies = db.unresolved_bodies ∧
        db'.scopes = db.scopes := by
  induction order with
  | nil =>
    intro db db' h
    simp only [Database.resolve_bodies_ordered, Except.ok.injEq] at h
    subst h
    simp
  | cons item rest ih =>
    intro db db' h
    simp only [Database.resolve_bodies_ordered] at h
    by_cases hk : (db.get_header item).kind ≠ ItemKind.Function
    · rw [if_pos hk] at h
      exact ih _ _ h
    · rw [if_neg hk] at h
      cases hb : db.get_unresolved_body item with
      | none => simp [hb] at h
      | some body =>
        rw [hb] at h
        cases hr : db.resolve_idents_in_body item body with
        | error e => simp [hr] at h
        | ok new_body =>
          simp only [hr] at h
          obtain ⟨h1, h2, h3, h4⟩ := ih _ _ h
          exact ⟨h1, h2, h3, h4⟩

/-! Characterization of phase 2: what ends up in `resolved_bodies`. -/

theorem bodyResult_set_resolved (db : Database) (i : ItemId) (b : List ResolvedAST) (f : ItemId) :
    (db.set_resolved_body i b).bodyResult f = db.bodyResult f := by
  have hrib := @resolve_idents_in_body_congr (db.set_resolved_body i b) db rfl rfl rfl f
  have hu : (db.set_resolved_body i b).get_unresolved_body f = db.get_unresolved_body f := rfl
  simp only [Database.bodyResult, hu]
  cases hub : db.get_unresolved_body f with
  | none => simp [hub]
  | some body => simp [hub, hrib body]

theorem resolve_bodies_ordered_lookup (order : List ItemId) :
    ∀ (db db' : Database), db.resolve_bodies_ordered order = Except.ok db' →
      ∀ f, mapLookup db'.resolved_bodies f =
        if f ∈ order ∧ (db.get_header f).kind = ItemKind.Function then db.bodyResult f
        else mapLookup db.resolved_bodies f := by
  induction order with
  | nil =>
    intro db db' h f
    simp only [Database.resolve_bodies_ordered, Except.ok.injEq] at h
    subst h
    simp
  | cons item rest ih =>
    intro db db' h f
    simp only [Database.resolve_bodies_ordered] at h
    by_cases hk : (db.get_header item).kind ≠ ItemKind.Function
    · rw [if_pos hk] at h
      rw [ih _ _ h f]
      by_cases hf : f = item
      · subst hf
        simp [hk]
      · simp [List.mem_cons, hf]
    · rw [if_neg hk] at h
      have hk' : (db.get_header item).kind = ItemKind.Function := not_ne_iff.mp hk
      cases hb : db.get_unresolved_body item with
      | none => simp [hb] at h
      | some body =>
        rw [hb] at h
        cases hr : db.resolve_idents_in_body item body with
        | error e => simp [hr] at h
        | ok new_body =>
          simp only [hr] at h
          have hlk := ih _ _ h f
          rw [bodyResult_set_resolved] at hlk
          have hgh : (db.set_resolved_body item new_body).get_header f = db.get_header f := rfl
          rw [hgh] at hlk
          have hbr : db.bodyResult item = some new_body := by
            simp [Database.bodyResult, hb, hr, Except.toOption]
          by_cases hf : f = item
          · subst hf
            rw [hlk]
            by_cases hmem : f ∈ rest
            · simp [hmem, hk', hbr]
            · have hins : mapLookup (db.set_resolved_body f new_body).resolved_bodies f
                  = some new_body := mapLookup_insert_self _ _ _
              simp [hmem, hk', hbr, hins]
          · rw [hlk]
            have hins : mapLookup (db.set_resolved_body item new_body).resolved_bodies f
                = mapLookup db.resolved_bodies f := mapLookup_insert_ne _ _ _ _ hf
            rw [hins]
            simp [List.mem_cons, hf]

theorem resolve_bodies_ordered_ok_body (order : List ItemId) :
    ∀ (db db' : Database), db.resolve_bodies_ordered order = Except.ok db' →
      ∀ f, f ∈ order → (db.get_header f).kind = ItemKind.Function →
        ∃ body r, db.get_unresolved_body f = some body ∧
          db.resolve_idents_in_body f body = Except.ok r := by
  induction order with
  | nil =>
    intro db db' h f hf
    simp at hf
  | cons item rest ih =>
    intro db db' h f hf hkind
    simp only [Database.resolve_bodies_ordered] at h
    by_cases hk : (db.get_header item).kind ≠ ItemKind.Function
    · rw [if_pos hk] at h
      rcases List.mem_cons.mp hf with hfi | hfr
      · subst hfi
        exact absurd hkind hk
      · exact ih _ _ h f hfr hkind
    · rw [if_neg hk] at h
      cases hb : db.get_unresolved_body item with
      | none => simp [hb] at h
      | some body =>
        rw [hb] at h
        cases hr : db.resolve_idents_in_body item body with
        | error e => simp [hr] at h
        | ok new_body =>
          simp only [hr] at h
          rcases List.mem_cons.mp hf with hfi | hfr
          · subst hfi
            exact ⟨body, new_body, hb, hr⟩
          · obtain ⟨b2, r2, hb2, hr2⟩ := ih _ _ h f hfr hkind
            refine ⟨b2, r2, hb2, ?_⟩
            rw [← @resolve_idents_in_body_congr (db.set_resolved_body item new_body) db
              rfl rfl rfl f b2]
            exact hr2

/-! Per-node characterization of body resolution, and decomposition of the
downward traversal. -/

theorem resolve_idents_in_body_spec (db : Database) (f : ItemId) (body : List UnresolvedAST) :
    ∀ (r : List ResolvedAST),
      db.resolve_idents_in_body f body = Except.ok r →
      r.length = body.length ∧
        ∀ k (hk : k < body.length) (hk2 : k < r.length),
          ∃ ident h, body.get ⟨k, hk⟩ = UnresolvedAST.Call ident ∧
            db.resolve_single_ident f ident = Except.ok h ∧
            r.get ⟨k, hk2⟩ = ResolvedAST.Call h := by
  induction body with
  | nil =>
    intro r h
    simp only [Database.resolve_idents_in_body, Except.ok.injEq] at h
    subst h
    refine ⟨rfl, ?_⟩
    intro k hk
    simp at hk
  | cons node rest ih =>
    obtain ⟨ident⟩ := node
    intro r h
    simp only [Database.resolve_idents_in_body] at h
    cases hr1 : db.resolve_single_ident f ident with
    | error e => simp [hr1] at h
    | ok rid =>
      rw [hr1] at h
      cases hr2 : db.resolve_idents_in_body f rest with
      | error e => simp [hr2] at h
      | ok tail =>
        simp only [hr2, Except.ok.injEq] at h
        subst h
        obtain ⟨hlen, hspec⟩ := ih tail hr2
        refine ⟨by simp [hlen], ?_⟩
        intro k hk hk2
        cases k with
        | zero => exact ⟨ident, rid, rfl, hr1, rfl⟩
        | succ m =>
          have hm : m < rest.length := by
            simp only [List.length_cons] at hk
            omega
          have hm2 : m < tail.length := by
            simp only [List.length_cons] at hk2
            omega
          obtain ⟨id2, h2, e1, e2, e3⟩ := hspec m hm hm2
          exact ⟨id2, h2, e1, e2, e3⟩

theorem resolve_down_append (db : Database) (cur : ItemId) (l1 l2 : List String) :
    db.resolve_down cur (l1 ++ l2) =
      match db.resolve_down cur l1 with
      | Except.error e => Except.error e
      | Except.ok m => db.resolve_down m l2 := by
  induction l1 generalizing cur with
  | nil => simp [Database.resolve_down]
  | cons s rest ih =>
    simp only [List.cons_append, Database.resolve_down]
    by_cases hk : (db.get_header cur).kind ≠ ItemKind.Module
    · simp [hk]
    · rw [if_neg hk, if_neg hk]
      cases hlk : mapLookup (db.get_scope cur).children s with
      | none => simp
      | some c => exact ih c

/-! Error characterization of the resolution procedure. -/

theorem get_visible_symbol_not_found_iff (db : Database) (i : ItemId) (name : String) :
    db.get_visible_symbol i name = Except.error ResolveError.SymbolNotFound ↔
      (name ≠ (db.get_header i).name ∧
        mapLookup (db.get_scope i).children name = none ∧
        ((db.get_header i).kind = ItemKind.Module ∨
          mapLookup (db.get_scope (db.get_header i).parent).children name = none) ∧
        mapLookup (db.get_scope db.root).children name = none) := by
  by_cases h1 : name = (db.get_header i).name
  · simp [Database.get_visible_symbol, h1]
  · cases h2 : mapLookup (db.get_scope i).children name with
    | some c => simp [Database.get_visible_symbol, h1, h2]
    | none =>
      by_cases h3 : (db.get_header i).kind = ItemKind.Module
      · cases h4 : mapLookup (db.get_scope db.root).children name with
        | some c => simp [Database.get_visible_symbol, h1, h2, h3, h4]
        | none => simp [Database.get_visible_symbol, h1, h2, h3, h4]
      · cases h5 : mapLookup (db.get_scope (db.get_header i).parent).children name with
        | some c => simp [Database.get_visible_symbol, h1, h2, h3, h5]
        | none =>
          cases h4 : mapLookup (db.get_scope db.root).children name with
          | some c => simp [Database.get_visible_symbol, h1, h2, h3, h5, h4]
          | none => simp [Database.get_visible_symbol, h1, h2, h3, h5, h4]

theorem get_visible_symbol_cases (db : Database) (i : ItemId) (name : String) :
    (∃ h, db.get_visible_symbol i name = Except.ok h) ∨
      db.get_visible_symbol i name = Except.error ResolveError.SymbolNotFound := by
  by_cases h1 : name = (db.get_header i).name
  · exact Or.inl ⟨i, by simp [Database.get_visible_symbol, h1]⟩
  · cases h2 : mapLookup (db.get_scope i).children name with
    | some c => exact Or.inl ⟨c, by simp [Database.get_visible_symbol, h1, h2]⟩
    | none =>
      by_cases h3 : (db.get_header i).kind = ItemKind.Module
      · cases h4 : mapLookup (db.get_scope db.root).children name with
        | some c => exact Or.inl ⟨c, by simp [Database.get_visible_symbol, h1, h2, h3, h4]⟩
        | none => exact Or.inr (by simp [Database.get_visible_symbol, h1, h2, h3, h4])
      · cases h5 : mapLookup (db.get_scope (db.get_header i).parent).children name with
        | some c => exact Or.inl ⟨c, by simp [Database.get_visible_symbol, h1, h2, h3, h5]⟩
        | none =>
          cases h4 : mapLookup (db.get_scope db.root).children name with
          | some c => exact Or.inl ⟨c, by simp [Database.get_visible_symbol, h1, h2, h3, h5, h4]⟩
          | none => exact Or.inr (by simp [Database.get_visible_symbol, h1, h2, h3, h5, h4])

theorem resolve_down_cases (db : Database) (cur : ItemId) (segs : List String) :
    (∃ h, db.resolve_down cur segs = Except.ok h) ∨
      db.resolve_down cur segs = Except.error ResolveError.SymbolNotFound ∨
      db.resolve_down cur segs = Except.error ResolveError.InvalidPathSegment := by
  induction segs generalizing cur with
  | nil => exact Or.inl ⟨cur, rfl⟩
  | cons s rest ih =>
    simp only [Database.resolve_down]
    by_cases hk : (db.get_header cur).kind ≠ ItemKind.Module
    · right
      right
      simp [hk]
    · rw [if_neg hk]
      cases mapLookup (db.get_scope cur).children s with
      | none => exact Or.inr (Or.inl rfl)
      | some c => exact ih c

theorem resolve_down_not_found_iff (db : Database) (cur : ItemId) (segs : List String) :
    db.resolve_down cur segs = Except.error ResolveError.SymbolNotFound ↔
      ∃ pre s post m, segs = pre ++ s :: post ∧ db.resolve_down cur pre = Except.ok m ∧
        (db.get_header m).kind = ItemKind.Module ∧
        mapLookup (db.get_scope m).children s = none := by
  constructor
  · induction segs generalizing cur with
    | nil =>
      intro h
      simp [Database.resolve_down] at h
    | cons s rest ih =>
      intro h
      simp only [Database.resolve_down] at h
      by_cases hk : (db.get_header cur).kind ≠ ItemKind.Module
      · rw [if_pos hk] at h
        simp at h
      · rw [if_neg hk] at h
        cases hlk : mapLookup (db.get_scope cur).children s with
        | none => exact ⟨[], s, rest, cur, rfl, rfl, not_ne_iff.mp hk, hlk⟩
        | some c =>
          rw [hlk] at h
          obtain ⟨pre, s', post, m, he, hd1, hd2, hd3⟩ := ih c h
          refine ⟨s :: pre, s', post, m, by simp [he], ?_, hd2, hd3⟩
          simp only [Database.resolve_down, if_neg hk, hlk]
          exact hd1
  · rintro ⟨pre, s, post, m, he, hd1, hd2, hd3⟩
    subst he
    rw [resolve_down_append, hd1]
    show db.resolve_down m (s :: post) = Except.error ResolveError.SymbolNotFound
    simp only [Database.resolve_down, if_neg (not_ne_iff.mpr hd2), hd3]

theorem resolve_single_ident_cases (db : Database) (i : ItemId) (first : String)
    (rest : List String) :
    (∃ h, db.resolve_single_ident i { parts := first :: rest } = Except.ok h) ∨
      db.resolve_single_ident i { parts := first :: rest }
        = Except.error ResolveError.SymbolNotFound ∨
      db.resolve_single_ident i { parts := first :: rest }
        = Except.error ResolveError.InvalidPathSegment := by
  simp only [Database.resolve_single_ident]
  rcases get_visible_symbol_cases db i first with ⟨h, hh⟩ | hh
  · rw [hh]
    exact resolve_down_cases db h rest
  · rw [hh]
    exact Or.inr (Or.inl rfl)

theorem resolve_single_ident_not_found_iff (db : Database) (i : ItemId) (first : String)
    (rest : List String) :
    db.resolve_single_ident i { parts := first :: rest }
        = Except.error ResolveError.SymbolNotFound ↔
      (db.get_visible_symbol i first = Except.error ResolveError.SymbolNotFound ∨
        ∃ h0, db.get_visible_symbol i first = Except.ok h0 ∧
          db.resolve_down h0 rest = Except.error ResolveError.SymbolNotFound) := by
  simp only [Database.resolve_single_ident]
  rcases get_visible_symbol_cases db i first with ⟨h, hh⟩ | hh
  · rw [hh]
    constructor
    · intro hd
      exact Or.inr ⟨h, rfl, hd⟩
    · rintro (habs | ⟨h0, hh0, hd⟩)
      · exact absurd habs (by simp)
      · have heq : h = h0 := by
          simpa using hh0
        subst heq
        exact hd
  · rw [hh]
    constructor
    · intro _
      exact Or.inl rfl
    · intro _
      rfl

/-! Claim theorems. -/

/-- C10: a freshly constructed database holds exactly one item, the root
module at handle 0 whose parent is handle 0, and the root's own scope binds
the name `<ROOT>` to handle 0; in a database extended with a module, a first
path segment spelled `<ROOT>` resolves to the root through the root-scope
fallback. -/
theorem c10_fresh_database :
    Database.new.headers
        = [{ kind := ItemKind.Module, name := "<ROOT>", parent := 0, id := 0 }] ∧
    Database.new.root = 0 ∧
    Database.new.scopes.length = 1 ∧
    mapLookup (Database.new.get_scope 0).children "<ROOT>" = some 0 ∧
    ((Database.new.new_item "Ma" ItemKind.Module none).1).get_visible_symbol 1 "<ROOT>"
        = Except.ok 0 := by
  refine ⟨by decide, by decide, by decide, by decide, by decide⟩

/-- C1: the visible-symbol lookup consults, in this priority order, the
item's own declared name, its own scope's children, its parent module's
children (only when the item is not a module), and the root scope's
children; and a sole-segment path equal to the item's own name resolves to
the item's own handle. -/
theorem c1_visible_symbol_priority (db : Database) (i c : ItemId) (name : String) :
    (name = (db.get_header i).name → db.get_visible_symbol i name = Except.ok i) ∧
    (name ≠ (db.get_header i).name →
      mapLookup (db.get_scope i).children name = some c →
      db.get_visible_symbol i name = Except.ok c) ∧
    (name ≠ (db.get_header i).name →
      mapLookup (db.get_scope i).children name = none →
      (db.get_header i).kind ≠ ItemKind.Module →
      mapLookup (db.get_scope (db.get_header i).parent).children name = some c →
      db.get_visible_symbol i name = Except.ok c) ∧
    (name ≠ (db.get_header i).name →
      mapLookup (db.get_scope i).children name = none →
      ((db.get_header i).kind = ItemKind.Module ∨
        mapLookup (db.get_scope (db.get_header i).parent).children name = none) →
      mapLookup (db.get_scope db.root).children name = some c →
      db.get_visible_symbol i name = Except.ok c) ∧
    db.resolve_single_ident i { parts := [(db.get_header i).name] } = Except.ok i := by
  refine ⟨?_, ?_, ?_, ?_, ?_⟩
  · intro h1
    simp [Database.get_visible_symbol, h1]
  · intro h1 h2
    simp [Database.get_visible_symbol, h1, h2]
  · intro h1 h2 h3 h4
    simp [Database.get_visible_symbol, h1, h2, h3, h4]
  · intro h1 h2 h3 h4
    rcases h3 with h3 | h3
    · simp [Database.get_visible_symbol, h1, h2, h3, h4]
    · by_cases hk : (db.get_header i).kind = ItemKind.Module
      · simp [Database.get_visible_symbol, h1, h2, hk, h4]
      · simp [Database.get_visible_symbol, h1, h2, hk, h3, h4]
  · simp [Database.resolve_single_ident, Database.get_visible_symbol, Database.resolve_down]

/-- Witness for C1 on the concrete `exShadow` database: self-name wins over
a root binding of the same name, an own child shadows a parent binding, a
function falls back to its parent module's children, a module skips the
parent and falls back to the root, and a sole-segment self path yields the
item itself. -/
theorem c1_witness :
    exShadow.get_visible_symbol 1 "f" = Except.ok 1 ∧
    exShadow.get_visible_symbol 1 "x" = Except.ok 1 ∧
    exShadow.get_visible_symbol 1 "y" = Except.ok 0 ∧
    exShadow.get_visible_symbol 2 "y" = Except.ok 0 ∧
    exShadow.resolve_single_ident 1 { parts := ["f"] } = Except.ok 1 :=
  ⟨(c1_visible_symbol_priority exShadow 1 1 "f").1 (by decide),
   (c1_visible_symbol_priority exShadow 1 1 "x").2.1 (by decide) (by decide),
   (c1_visible_symbol_priority exShadow 1 0 "y").2.2.1 (by decide) (by decide) (by decide)
     (by decide),
   (c1_visible_symbol_priority exShadow 2 0 "y").2.2.2.1 (by decide) (by decide)
     (Or.inl (by decide)) (by decide),
   (c1_visible_symbol_priority exShadow 1 0 "f").2.2.2.2⟩

/-- C5: a path with at least two segments whose non-final segment resolves
to a function fails with `InvalidPathSegment` instead of returning a handle
or silently dropping the remaining segments. -/
theorem c5_invalid_path_segment (db : Database) (i h0 h : ItemId) (first : String)
    (mid rest : List String) :
    rest ≠ [] →
    db.get_visible_symbol i first = Except.ok h0 →
    db.resolve_down h0 mid = Except.ok h →
    (db.get_header h).kind = ItemKind.Function →
    db.resolve_single_ident i { parts := first :: (mid ++ rest) }
      = Except.error ResolveError.InvalidPathSegment := by
  intro hne hgvs hdown hkind
  simp only [Database.resolve_single_ident, hgvs]
  rw [resolve_down_append, hdown]
  show db.resolve_down h rest = _
  cases rest with
  | nil => exact absurd rfl hne
  | cons r rest' =>
    have hnm : (db.get_header h).kind ≠ ItemKind.Module := by
      rw [hkind]
      simp
    simp [Database.resolve_down, hnm]

/-- Witness for C5: in the scenario database, `A2.a_func.bogus` resolved
from `top_func` fails with `InvalidPathSegment` because `a_func` is a
function. -/
theorem c5_witness :
    exScenario.resolve_single_ident 4 { parts := ["A2", "a_func", "bogus"] }
      = Except.error ResolveError.InvalidPathSegment :=
  c5_invalid_path_segment exScenario 4 2 3 "A2" ["a_func"] ["bogus"] (by decide) (by decide)
    (by decide) (by decide)

/-- C6: the resolution procedure fails with `SymbolNotFound` exactly when a
segment finds no binding — the first segment when it matches none of the
four visibility sources, a later segment when the current module's children
lack it — and otherwise a non-empty path yields a handle or fails with
`InvalidPathSegment`. -/
theorem c6_symbol_not_found_characterization (db : Database) (i cur : ItemId)
    (name first : String) (rest segs : List String) :
    (db.get_visible_symbol i name = Except.error ResolveError.SymbolNotFound ↔
      (name ≠ (db.get_header i).name ∧
        mapLookup (db.get_scope i).children name = none ∧
        ((db.get_header i).kind = ItemKind.Module ∨
          mapLookup (db.get_scope (db.get_header i).parent).children name = none) ∧
        mapLookup (db.get_scope db.root).children name = none)) ∧
    (db.resolve_down cur segs = Except.error ResolveError.SymbolNotFound ↔
      ∃ pre s post m, segs = pre ++ s :: post ∧ db.resolve_down cur pre = Except.ok m ∧
        (db.get_header m).kind = ItemKind.Module ∧
        mapLookup (db.get_scope m).children s = none) ∧
    (db.resolve_single_ident i { parts := first :: rest }
        = Except.error ResolveError.SymbolNotFound ↔
      (db.get_visible_symbol i first = Except.error ResolveError.SymbolNotFound ∨
        ∃ h0, db.get_visible_symbol i first = Except.ok h0 ∧
          db.resolve_down h0 rest = Except.error ResolveError.SymbolNotFound)) ∧
    ((∃ h, db.resolve_single_ident i { parts := first :: rest } = Except.ok h) ∨
      db.resolve_single_ident i { parts := first :: rest }
        = Except.error ResolveError.SymbolNotFound ∨
      db.resolve_single_ident i { parts := first :: rest }
        = Except.error ResolveError.InvalidPathSegment) :=
  ⟨get_visible_symbol_not_found_iff db i name,
   resolve_down_not_found_iff db cur segs,
   resolve_single_ident_not_found_iff db i first rest,
   resolve_single_ident_cases db i first rest⟩

/-- Witness for C6: in the scenario database, resolving `A2.nope` from
`top_func` fails with `SymbolNotFound`. -/
theorem c6_witness :
    exScenario.resolve_single_ident 4 { parts := ["A2", "nope"] }
      = Except.error ResolveError.SymbolNotFound :=
  (c6_symbol_not_found_characterization exScenario 4 2 "nope" "A2" ["nope"] ["nope"]).2.2.1.mpr
    (Or.inr ⟨2, by decide, by decide⟩)

/-- C8: binding a name that is already bound — whether by declaring a
second child of the same name via `new_item` or by installing an alias via
`add_child` — silently overwrites the previous binding, with no error and
no diagnostic, and the scope afterwards maps the name to the most recently
bound handle. -/
theorem c8_silent_overwrite (s : Scope) (name n' : String) (i1 i2 : ItemId)
    (db : Database) (kind : ItemKind) (p : ItemId) :
    mapLookup ((s.add_child name i1).add_child name i2).children name = some i2 ∧
    (n' ≠ name →
      mapLookup (s.add_child name i1).children n' = mapLookup s.children n') ∧
    (p < db.scopes.length → db.scopes.length = db.headers.length →
      mapLookup
          (((((db.new_item name kind (some p)).1).new_item name kind (some p)).1).get_scope
            p).children name
        = some ((((db.new_item name kind (some p)).1).new_item name kind (some p)).2) ∧
      ((((db.new_item name kind (some p)).1).new_item name kind (some p)).2)
        ≠ (db.new_item name kind (some p)).2) := by
  refine ⟨?_, ?_, ?_⟩
  · simp only [Scope.add_child]
    exact mapLookup_insert_self _ _ _
  · intro h
    simp only [Scope.add_child]
    exact mapLookup_insert_ne _ _ _ _ h
  · intro hp hlen
    have e1 : ((db.new_item name kind (some p)).1).scopes
        = modifyIdx (db.scopes ++ [Scope.new]) p
            (fun s => s.add_child name db.headers.length) := rfl
    have e1h : ((db.new_item name kind (some p)).1).headers.length
        = db.headers.length + 1 := by
      simp [Database.new_item]
    have e1len : ((db.new_item name kind (some p)).1).scopes.length
        = db.scopes.length + 1 := by
      rw [e1, modifyIdx_length]
      simp
    constructor
    · have e2 : ((((db.new_item name kind (some p)).1).new_item name kind (some p)).1).scopes
          = modifyIdx (((db.new_item name kind (some p)).1).scopes ++ [Scope.new]) p
              (fun s =>
                s.add_child name ((db.new_item name kind (some p)).1).headers.length) := rfl
      show mapLookup (((((db.new_item name kind (some p)).1).new_item name kind
          (some p)).1).get_scope p).children name = _
      simp only [Database.get_scope, e2]
      rw [getD_modifyIdx]
      rw [if_pos ⟨rfl, by
        rw [List.length_append, e1len]
        simp only [List.length_singleton]
        exact Nat.lt_succ_of_lt (Nat.lt_succ_of_lt hp)⟩]
      rw [getD_append_left ((db.new_item name kind (some p)).1).scopes [Scope.new] p Scope.new
        (by rw [e1len]; exact Nat.lt_succ_of_lt hp)]
      rw [e1]
      rw [getD_modifyIdx]
      rw [if_pos ⟨rfl, by
        rw [List.length_append]
        simp only [List.length_singleton]
        exact Nat.lt_succ_of_lt hp⟩]
      simp only [Scope.add_child]
      exact mapLookup_insert_self _ _ _
    · have hne1 : (((db.new_item name kind (some p)).1).new_item name kind (some p)).2
          = ((db.new_item name kind (some p)).1).headers.length := rfl
      have hne2 : (db.new_item name kind (some p)).2 = db.headers.length := rfl
      rw [hne1, hne2, e1h]
      exact Nat.succ_ne_self db.headers.length

/-- Witness for C8: in a fresh database, declaring two modules named `dup`
under the root leaves `dup` bound to the second handle only. -/
theorem c8_witness :
    mapLookup
        (((((Database.new.new_item "dup" ItemKind.Module (some 0)).1).new_item "dup"
          ItemKind.Module (some 0)).1).get_scope 0).children "dup"
      = some ((((Database.new.new_item "dup" ItemKind.Module (some 0)).1).new_item "dup"
          ItemKind.Module (some 0)).2) ∧
    ((((Database.new.new_item "dup" ItemKind.Module (some 0)).1).new_item "dup"
        ItemKind.Module (some 0)).2)
      ≠ (Database.new.new_item "dup" ItemKind.Module (some 0)).2 :=
  (c8_silent_overwrite Scope.new "dup" "other" 0 0 Database.new ItemKind.Module 0).2.2
    (by decide) (by decide)

/-- C9: `new_item` assigns the next handle, pushes exactly one header and
one scope in the same call, stores the header carrying its own id at that
index, and — together with the body and import setters — preserves the
invariant that headers and scopes are parallel arrays whose entry at index
`h` has id `h`; the fresh database satisfies the invariant. -/
theorem c9_handle_invariants (db : Database) (name : String) (kind : ItemKind)
    (parent? : Option ItemId) (i : ItemId) (ident : UnresolvedIdent)
    (ub : List UnresolvedAST) (rb : List ResolvedAST) :
    (db.new_item name kind parent?).2 = db.headers.length ∧
    ((db.new_item name kind parent?).1).headers.length = db.headers.length + 1 ∧
    ((db.new_item name kind parent?).1).scopes.length = db.scopes.length + 1 ∧
    ((db.new_item name kind parent?).1).headers.getD db.headers.length junkHeader
      = { kind := kind, name := name, parent := parent?.getD db.root,
          id := db.headers.length } ∧
    (db.wf → ((db.new_item name kind parent?).1).wf) ∧
    Database.new.wf ∧
    (db.wf → (db.add_import i ident).wf) ∧
    (db.wf → (db.set_unresolved_body i ub).wf) ∧
    (db.wf → (db.set_resolved_body i rb).wf) := by
  refine ⟨rfl, by simp [Database.new_item], ?_, ?_, ?_, by decide, ?_, ?_, ?_⟩
  · show (modifyIdx (db.scopes ++ [Scope.new]) _ _).length = _
    rw [modifyIdx_length]
    simp
  · show (db.headers ++ [_]).getD db.headers.length junkHeader = _
    exact getD_append_length _ _ _
  · rintro ⟨hl, hid⟩
    constructor
    · show (db.headers ++ [_]).length = (modifyIdx (db.scopes ++ [Scope.new]) _ _).length
      rw [modifyIdx_length]
      simp [hl]
    · intro j hj
      have hj' : j < db.headers.length + 1 := by
        have e : ((db.new_item name kind parent?).1).headers.length
            = db.headers.length + 1 := by
          simp [Database.new_item]
        omega
      by_cases hjl : j < db.headers.length
      · have e : ((db.new_item name kind parent?).1).headers.getD j junkHeader
            = db.headers.getD j junkHeader := by
          show (db.headers ++ [_]).getD j junkHeader = _
          exact getD_append_left _ _ _ _ hjl
        rw [e]
        exact hid j hjl
      · have hj2 : j = db.headers.length := by omega
        subst hj2
        have e : ((db.new_item name kind parent?).1).headers.getD db.headers.length junkHeader
            = { kind := kind, name := name, parent := parent?.getD db.root,
                id := db.headers.length } := by
          show (db.headers ++ [_]).getD db.headers.length junkHeader = _
          exact getD_append_length _ _ _
        rw [e]
  · rintro ⟨hl, hid⟩
    exact ⟨by simp [Database.add_import, modifyIdx_length, hl], hid⟩
  · rintro ⟨hl, hid⟩
    exact ⟨hl, hid⟩
  · rintro ⟨hl, hid⟩
    exact ⟨hl, hid⟩

/-- Witness for C9: extending the scenario database with one module keeps
the handle/scope invariant and assigns the next handle. -/
theorem c9_witness :
    (exScenario.new_item "zed" ItemKind.Module none).2 = exScenario.headers.length ∧
    ((exScenario.new_item "zed" ItemKind.Module none).1).wf :=
  ⟨(c9_handle_invariants exScenario "zed" ItemKind.Module none 0
      { parts := ["a"] } [] []).1,
   (c9_handle_invariants exScenario "zed" ItemKind.Module none 0
      { parts := ["a"] } [] []).2.2.2.2.1 (by decide)⟩

/-- C7: a successful `resolve_idents` leaves the item headers, the item
count, the root handle, the unresolved bodies and every scope's pending
imports unchanged; only scope children and resolved bodies can differ. -/
theorem c7_resolution_frame (db db' : Database) :
    db.resolve_idents = Except.ok db' →
    db'.headers = db.headers ∧ db'.root = db.root ∧
      db'.headers.length = db.headers.length ∧
      db'.unresolved_bodies = db.unresolved_bodies ∧
      db'.scopes.length = db.scopes.length ∧
      ∀ j, (db'.get_scope j).unresolved_imports = (db.get_scope j).unresolved_imports := by
  intro h
  simp only [Database.resolve_idents, Database.resolve_idents_ordered] at h
  cases h1 : db.resolve_scopes_ordered (db.headers.map (fun hd => hd.id)) with
  | error e => simp [h1] at h
  | ok db1 =>
    simp only [h1] at h
    obtain ⟨p1, p2, p3, p4, p5, p6⟩ := resolve_scopes_ordered_frame _ _ _ h1
    obtain ⟨q1, q2, q3, q4⟩ := resolve_bodies_ordered_frame _ _ _ h
    refine ⟨q1.trans p1, q2.trans p2, by rw [q1, p1], q3.trans p3, ?_, ?_⟩
    · rw [q4]
      exact p5
    · intro j
      have e : db'.get_scope j = db1.get_scope j := by
        simp [Database.get_scope, q4]
      rw [e]
      exact p6 j

/-- Witness for C7 on the concrete scenario database. -/
theorem c7_witness :
    exScenarioResolved.headers = exScenario.headers ∧
    (exScenarioResolved.get_scope 5).unresolved_imports
      = (exScenario.get_scope 5).unresolved_imports :=
  ⟨(c7_resolution_frame exScenario exScenarioResolved (by decide)).1,
   (c7_resolution_frame exScenario exScenarioResolved (by decide)).2.2.2.2.2 5⟩

/-- C2: after a successful `resolve_idents`, every function item listed in
the header snapshot has a resolved body, node-for-node the resolution of
its unresolved body against the post-phase-1 database seeded at the
function's own handle (empty bodies stay empty), and no other item's
resolved-body entry changes. -/
theorem c2_resolved_bodies (db db' : Database) :
    db.resolve_idents = Except.ok db' →
    ∃ db1, db.resolve_scopes_ordered (db.headers.map (fun hd => hd.id)) = Except.ok db1 ∧
      (∀ f, f ∈ db.headers.map (fun hd => hd.id) →
        (db.get_header f).kind = ItemKind.Function →
        ∃ body new_body, db.get_unresolved_body f = some body ∧
          mapLookup db'.resolved_bodies f = some new_body ∧
          new_body.length = body.length ∧
          (body = [] → new_body = []) ∧
          ∀ k (hk : k < body.length) (hk2 : k < new_body.length),
            ∃ ident h, body.get ⟨k, hk⟩ = UnresolvedAST.Call ident ∧
              db1.resolve_single_ident f ident = Except.ok h ∧
              new_body.get ⟨k, hk2⟩ = ResolvedAST.Call h) ∧
      (∀ g, (db.get_header g).kind ≠ ItemKind.Function →
        mapLookup db'.resolved_bodies g = mapLookup db.resolved_bodies g) := by
  intro h
  simp only [Database.resolve_idents, Database.resolve_idents_ordered] at h
  cases h1 : db.resolve_scopes_ordered (db.headers.map (fun hd => hd.id)) with
  | error e => simp [h1] at h
  | ok db1 =>
    simp only [h1] at h
    obtain ⟨p1, p2, p3, p4, p5, p6⟩ := resolve_scopes_ordered_frame _ _ _ h1
    refine ⟨db1, rfl, ?_, ?_⟩
    · intro f hf hkind
      have hkind1 : (db1.get_header f).kind = ItemKind.Function := by
        rw [get_header_congr p1 f]
        exact hkind
      obtain ⟨body, r, hb, hr⟩ := resolve_bodies_ordered_ok_body _ _ _ h f hf hkind1
      have hb0 : db.get_unresolved_body f = some body := by
        have e : db1.get_unresolved_body f = db.get_unresolved_body f := by
          simp [Database.get_unresolved_body, p3]
        rw [← e]
        exact hb
      have hlk := resolve_bodies_ordered_lookup _ _ _ h f
      rw [if_pos ⟨hf, hkind1⟩] at hlk
      have hbr : db1.bodyResult f = some r := by
        simp [Database.bodyResult, hb, hr, Except.toOption]
      obtain ⟨hlen, hspec⟩ := resolve_idents_in_body_spec db1 f body r hr
      refine ⟨body, r, hb0, by rw [hlk]; exact hbr, hlen, ?_, hspec⟩
      intro hbody
      subst hbody
      have hr0 : r.length = 0 := by simpa using hlen
      exact List.length_eq_zero.mp hr0
    · intro g hkind
      have hlk := resolve_bodies_ordered_lookup _ _ _ h g
      have hcond : ¬(g ∈ db.headers.map (fun hd => hd.id) ∧
          (db1.get_header g).kind = ItemKind.Function) := by
        rintro ⟨_, hk⟩
        apply hkind
        rw [← get_header_congr p1 g]
        exact hk
      rw [if_neg hcond] at hlk
      rw [hlk, p4]

/-- Witness for C2: in the resolved scenario database, `b_func` (handle 6)
has a resolved-body entry. -/
theorem c2_witness :
    mapLookup exScenarioResolved.resolved_bodies 6 ≠ none := by
  obtain ⟨db1, -, hfun, -⟩ := c2_resolved_bodies exScenario exScenarioResolved (by decide)
  obtain ⟨body, nb, -, hlk, -⟩ := hfun 6 (by decide) (by decide)
  rw [hlk]
  simp

/-- Counterexample to C3: `exDb3`'s natural processing order resolves both
imports, but the permuted order that processes `B` before `A` fails with
`SymbolNotFound`, because `B`'s import `A.N` traverses the alias `N` that
`A`'s own import installs during the same pass — phase 1 is not
order-independent, and an import can observe another pending import's
alias. -/
theorem c3_counterexample :
    List.Perm [0, 1, 2, 4, 3] [0, 1, 2, 3, 4] ∧
    exDb3.headers.map (fun hd => hd.id) = [0, 1, 2, 3, 4] ∧
    (exDb3.resolve_idents_ordered [0, 1, 2, 3, 4]).isOk = true ∧
    exDb3.resolve_idents_ordered [0, 1, 2, 4, 3]
      = Except.error ResolveError.SymbolNotFound := by
  refine ⟨by decide, by decide, by decide, by decide⟩

/-- C3 as amended: only phase 2 is order-independent.  Permuting the order
in which function bodies are resolved leaves the headers, scopes, root and
unresolved bodies equal and yields extensionally equal resolved-bodies
maps; phase 1 enjoys no such property (see the counterexample). -/
theorem c3_amended_phase2_order_independence (db d1 d2 : Database) (o1 o2 : List ItemId) :
    o1.Perm o2 →
    db.resolve_bodies_ordered o1 = Except.ok d1 →
    db.resolve_bodies_ordered o2 = Except.ok d2 →
    d1.headers = d2.headers ∧ d1.scopes = d2.scopes ∧ d1.root = d2.root ∧
      d1.unresolved_bodies = d2.unresolved_bodies ∧
      ∀ f, mapLookup d1.resolved_bodies f = mapLookup d2.resolved_bodies f := by
  intro hperm h1 h2
  obtain ⟨a1, a2, a3, a4⟩ := resolve_bodies_ordered_frame _ _ _ h1
  obtain ⟨b1, b2, b3, b4⟩ := resolve_bodies_ordered_frame _ _ _ h2
  refine ⟨a1.trans b1.symm, a4.trans b4.symm, a2.trans b2.symm, a3.trans b3.symm, ?_⟩
  intro f
  rw [resolve_bodies_ordered_lookup _ _ _ h1 f, resolve_bodies_ordered_lookup _ _ _ h2 f]
  by_cases hm : f ∈ o1
  · have hm2 : f ∈ o2 := hperm.mem_iff.mp hm
    simp [hm, hm2]
  · have hm2 : f ∉ o2 := fun hc => hm (hperm.mem_iff.mpr hc)
    simp [hm, hm2]

/-- Witness for the amended C3: resolving the scenario's function bodies in
the orders 3,4,6 and 6,4,3 stores the resolved bodies in differently
ordered maps whose lookups nevertheless agree. -/
theorem c3_amended_witness :
    mapLookup exScenarioResolved.resolved_bodies 6
      = mapLookup exScenarioBodiesRev.resolved_bodies 6 :=
  (c3_amended_phase2_order_independence exScenarioPhase1 exScenarioResolved
      exScenarioBodiesRev [3, 4, 6] [6, 4, 3] (by decide) (by decide) (by decide)).2.2.2.2 6

/-- Counterexample to C4: in `exDb4`, after `resolve_idents` the first
pending import `using W.S` of module `M` (handle 5) left the binding of
`S` to handle 4, yet re-running the path-resolution procedure on `W.S`
from `M` over the post-phase-1 database fails with `SymbolNotFound`: the
second pending import of `M` rebound `W` to the sibling module `V.W`,
which has no child `S`. -/
theorem c4_counterexample :
    (exDb4.get_scope 5).unresolved_imports.head? = some { parts := ["W", "S"] } ∧
    ({ parts := ["W", "S"] } : UnresolvedIdent).parts.getLast? = some "S" ∧
    Except.map (fun d => mapLookup (d.get_scope 5).children "S") exDb4.resolve_idents
      = Except.ok (some 4) ∧
    Except.map (fun d => d.resolve_single_ident 5 { parts := ["W", "S"] })
        exDb4.resolve_idents
      = Except.ok (Except.error ResolveError.SymbolNotFound) := by
  refine ⟨by decide, by decide, by decide, by decide⟩

theorem resolve_imports_for_preserves_binding (imps : List UnresolvedIdent) :
    ∀ (db db' : Database) (item : ItemId) (name : String) (h : ItemId),
      mapLookup ((db.get_scope item)).children name = some h →
      (∀ q ∈ imps, q.parts.getLast? ≠ some name) →
      db.resolve_imports_for item imps = Except.ok db' →
      mapLookup ((db'.get_scope item)).children name = some h := by
  induction imps with
  | nil =>
    intro db db' item name h hbind _ hok
    simp only [Database.resolve_imports_for, Except.ok.injEq] at hok
    subst hok
    exact hbind
  | cons q rest ih =>
    intro db db' item name h hbind hne hok
    simp only [Database.resolve_imports_for] at hok
    cases hl : q.parts.getLast? with
    | none => simp [hl] at hok
    | some nm =>
      rw [hl] at hok
      cases hr : db.resolve_single_ident item q with
      | error e => simp [hr] at hok
      | ok rid =>
        simp only [hr] at hok
        apply ih _ _ _ _ _ ?_ (fun q' hq' => hne q' (List.mem_cons_of_mem _ hq')) hok
        have hnm : nm ≠ name := by
          intro hcontra
          exact hne q (List.mem_cons_self q rest) (by rw [hl, hcontra])
        rw [get_scope_scope_add_child]
        split
        · simp only [Scope.add_child]
          rw [mapLookup_insert_ne _ _ _ _ (Ne.symm hnm)]
          exact hbind
        · exact hbind

/-- C4 as amended: the binding an import installs equals the handle the
path-resolution procedure computed *at the moment the import was
processed*, and it persists through the rest of the item's imports as long
as none of them rebinds the same final name; phase-1 steps of other items
never touch this item's scope.  Re-evaluating the path over the
post-phase-1 database can differ (see the counterexample). -/
theorem c4_amended_binding_at_processing_time (db db' db2 : Database) (item j : ItemId)
    (p : UnresolvedIdent) (rest imps : List UnresolvedIdent) (name : String) :
    (db.resolve_imports_for item (p :: rest) = Except.ok db' →
      p.parts.getLast? = some name →
      (∀ q ∈ rest, q.parts.getLast? ≠ some name) →
      item < db.scopes.length →
      ∃ h, db.resolve_single_ident item p = Except.ok h ∧
        mapLookup (db'.get_scope item).children name = some h) ∧
    (db.resolve_imports_for j imps = Except.ok db2 → j ≠ item →
      db2.get_scope item = db.get_scope item) := by
  constructor
  · intro hok hlast hrest hlen
    simp only [Database.resolve_imports_for] at hok
    rw [hlast] at hok
    cases hr : db.resolve_single_ident item p with
    | error e => simp [hr] at hok
    | ok rid =>
      simp only [hr] at hok
      refine ⟨rid, rfl, ?_⟩
      apply resolve_imports_for_preserves_binding rest _ _ _ _ _ ?_ hrest hok
      rw [get_scope_scope_add_child]
      rw [if_pos ⟨rfl, hlen⟩]
      simp only [Scope.add_child]
      exact mapLookup_insert_self _ _ _
  · intro hok hj
    exact (resolve_imports_for_frame imps db db2 j hok).2.2.2.2.2.2 item (Ne.symm hj)

/-- Witness for the amended C4: in `exDb4`, processing `M`'s import list
binds `S` to the handle that `W.S` resolved to at that moment (handle 4),
and the binding survives the later import of `V.W`. -/
theorem c4_amended_witness :
    ∃ h, exDb4.resolve_single_ident 5 { parts := ["W", "S"] } = Except.ok h ∧
      mapLookup (exDb4Phase1.get_scope 5).children "S" = some h :=
  (c4_amended_binding_at_processing_time exDb4 exDb4Phase1 exDb4 5 0
      { parts := ["W", "S"] } [{ parts := ["V", "W"] }] [] "S").1
    (by decide) (by decide) (by decide) (by decide)
